import Mathlib

/-!
# Kinesis consumer metrics decorators (Go package `stats`)

A shallow embedding of `statmessageprocessor.go` and `statbinder.go`.

* Stateful code is written in state-passing style over a `World` holding the
  wall/monotonic clock and the list of calls the metrics sinks have received.
* A Go panic is the `error` side of `Except`; a returned Go `error` value is an
  `Option MessageProcessorError` (`none` is Go's `nil`).
* `time.Duration` is an `int64` count of nanoseconds: it is an `Int` here, and the
  wrap-around and saturation of the standard library are written out.
-/

namespace Stats

/-! ## Go runtime and standard library: `time` -/

/-- Go `minDuration = -1 << 63`. -/
def minDuration : Int := -(2 ^ 63)

/-- Go `maxDuration = 1<<63 - 1`. -/
def maxDuration : Int := 2 ^ 63 - 1

/-- Two's-complement wrap-around of an integer to `int64`. -/
def wrap64 (x : Int) : Int := (x + 2 ^ 63) % 2 ^ 64 - 2 ^ 63

/-- Go `time.Time`: the wall-clock instant in nanoseconds relative to the Unix epoch, and
the monotonic clock reading (nanoseconds since process start) when the value carries one.
The location is not kept: it does not take part in any computation of this package. -/
structure Time where
  wall : Int
  mono : Option Int
deriving DecidableEq, Repr

/-- Go `Time.Local`: same instant with the location set to local time; setting the location
strips the monotonic reading. -/
def Time.Local (t : Time) : Time := { t with mono := none }

/-- Go `time.subMono`: difference of two monotonic readings, saturating on `int64` overflow. -/
def time.subMono (t u : Int) : Int :=
  let d := wrap64 (t - u)
  if d < 0 ∧ t > u then maxDuration
  else if d > 0 ∧ t < u then minDuration
  else d

/-- Go `Time.Sub`: the duration `t - u`. When both values carry a monotonic reading those
are subtracted; otherwise the wall-clock difference is computed in `int64`, and when it
does not fit the result is `minDuration` or `maxDuration`. -/
def Time.Sub (t u : Time) : Int :=
  match t.mono, u.mono with
  | some tm, some um => time.subMono tm um
  | _, _ =>
    let d := wrap64 (t.wall - u.wall)
    if u.wall + d = t.wall then d
    else if t.wall < u.wall then minDuration
    else maxDuration

/-- Go conversion `float64(n)` of a non-negative `int`, given as the number the resulting
float denotes: exact below `2^53`, rounded to nearest (ties to even) on 53 significant
bits from there on. -/
def float64 (n : Nat) : Nat :=
  if n < 2 ^ 53 then n
  else
    let e := Nat.log2 n - 52
    let q := n / 2 ^ e
    let r := n % 2 ^ e
    let q := if 2 ^ e < 2 * r ∨ (2 * r = 2 ^ e ∧ q % 2 = 1) then q + 1 else q
    q * 2 ^ e

/-! ## Collaborators: `xstats`, `context`, `kinesis`, `messageprocessor` -/

/-- An `xstats.XStater` interface value: the library's no-op sink `nop`; a sink identified
by a handle that has no `Copy` method, as the mock of the tests; or a sink identified by a
handle that implements `xstats.Copier`, with the sink its `Copy` method returns. -/
inductive XStater where
  | nop
  | client (id : Nat)
  | copier (id : Nat) (copy : XStater)
deriving DecidableEq, Repr

/-- Library `xstats.Copy`: the copy the sink makes when it implements `xstats.Copier`,
the no-op sink otherwise. -/
def xstats.Copy : XStater → XStater
  | XStater.copier _ copy => copy
  | _ => XStater.nop

/-- One method call received by a sink. `Count` carries the `float64` amount (every amount
this package passes is a non-negative whole number), `Timing` the `time.Duration` in
nanoseconds. Neither call of this package passes tags. -/
inductive Call where
  | Count (stat : XStater) (name : String) (count : Nat)
  | Timing (stat : XStater) (name : String) (d : Int)
deriving DecidableEq, Repr

/-- The part of the process state this package touches: `clock n` is the value of the
`n`-th call of `time.Now`, `reads` counts the calls made so far, and `calls` lists the
method calls sinks have received, oldest first. -/
structure World where
  clock : Nat → Time
  reads : Nat
  calls : List Call

/-- Go `time.Now`. -/
def time.Now (w : World) : Time × World :=
  (w.clock w.reads, { w with reads := w.reads + 1 })

/-- Go `time.Since(t)`, which is `time.Now().Sub(t)`. -/
def time.Since (t : Time) (w : World) : Int × World :=
  let (now, w) := time.Now w
  (now.Sub t, w)

/-- Method `Count(stat, count)` of a sink. -/
def XStater.Count (s : XStater) (stat : String) (count : Nat) (w : World) : World :=
  { w with calls := w.calls ++ [Call.Count s stat count] }

/-- Method `Timing(stat, duration)` of a sink. -/
def XStater.Timing (s : XStater) (stat : String) (d : Int) (w : World) : World :=
  { w with calls := w.calls ++ [Call.Timing s stat d] }

/-- Keys of `context.Context` values: the private key of package `xstats`, or another. -/
inductive CtxKey where
  | xstatsKey
  | other (k : Nat)
deriving DecidableEq, Repr

/-- Values stored in a `context.Context`: an `XStater`, or anything else. -/
inductive CtxValue where
  | stater (xs : XStater)
  | other (v : Nat)
deriving DecidableEq, Repr

/-- Go `context.Context` as the immutable chain of key/value bindings it carries. -/
inductive Context where
  | Background
  | WithValue (parent : Context) (key : CtxKey) (val : CtxValue)
deriving DecidableEq, Repr

/-- Go `Context.Value`: the value of the innermost binding of `key`. -/
def Context.Value : Context → CtxKey → Option CtxValue
  | Background, _ => none
  | WithValue parent k v, key => if k = key then some v else parent.Value key

/-- Library `xstats.NewContext`: `context.WithValue(ctx, xstatsKey, xs)`. -/
def xstats.NewContext (ctx : Context) (xs : XStater) : Context :=
  Context.WithValue ctx CtxKey.xstatsKey (CtxValue.stater xs)

/-- Library `xstats.FromContext`: the `XStater` bound in `ctx`, or `nop` when there is
none. -/
def xstats.FromContext (ctx : Context) : XStater :=
  match ctx.Value CtxKey.xstatsKey with
  | some (CtxValue.stater xs) => xs
  | _ => XStater.nop

/-- One octet. -/
abbrev Byte := Fin 256

/-- Go `kinesis.Record`, the fields this package and its tests use. `Data` is a byte slice
(a nil slice is the empty list: only `len` is applied to it), the other two are pointers,
`none` being nil. A byte slice lies in the Go heap, which spans at most `2^48` bytes on
every platform, so its length stays below `2^53`. -/
structure Record where
  Data : List Byte
  ApproximateArrivalTimestamp : Option Time
  SequenceNumber : Option String
  addressable : Data.length < 2 ^ 53

/-- A non-nil `messageprocessor.MessageProcessorError` value, identified by a handle. -/
structure MessageProcessorError where
  id : Nat
deriving DecidableEq, Repr

/-- A Go panic unwinding the stack. -/
inductive Panic where
  | nilDereference
  | raised (id : Nat)
deriving DecidableEq, Repr

/-- What a call of `ProcessMessage` does: it panics, or it returns an error value (`none`
is nil) and leaves a world behind. -/
abbrev Outcome := Except Panic (Option MessageProcessorError × World)

/-- Interface `messageprocessor.MessageProcessor`. -/
structure MessageProcessor where
  ProcessMessage : Context → Record → World → Outcome

/-! ## `statmessageprocessor.go` -/

def consumedCounter : String := "kinesis.consumed"
def consumerSuccessCounter : String := "kinesis.consumer_success"
def consumerErrorCounter : String := "kinesis.consumer_error"
def consumedSize : String := "kinesis.consumed_size"
def consumerLag : String := "kinesis.consumer_lag.timing"
def consumerTimingSuccess : String := "kinesis.consumer.timing.success"
def consumerTimingFailure : String := "kinesis.consumer.timing.failure"

/-- Go `StatMessageProcessorConfig`. -/
structure StatMessageProcessorConfig where
  ConsumedCounter : String
  ConsumerSuccessCounter : String
  ConsumerErrorCounter : String
  ConsumedSize : String
  ConsumerLag : String
  ConsumerTimingSuccess : String
  ConsumerTimingFailure : String
deriving DecidableEq, Repr

/-- Go `(*StatMessageProcessorConfig).Name`. -/
def StatMessageProcessorConfig.Name (_c : StatMessageProcessorConfig) : String :=
  "consumerMetrics"

/-- Go `StatMessageProcessor`. -/
structure StatMessageProcessor where
  ConsumedCounter : String
  ConsumerSuccessCounter : String
  ConsumerErrorCounter : String
  ConsumedSize : String
  ConsumerLag : String
  ConsumerTimingSuccess : String
  ConsumerTimingFailure : String
  wrapped : MessageProcessor

/-- Go `(*StatMessageProcessorComponent).Settings`. -/
def StatMessageProcessorComponent.Settings : StatMessageProcessorConfig :=
  { ConsumedCounter := consumedCounter
    ConsumerSuccessCounter := consumerSuccessCounter
    ConsumerErrorCounter := consumerErrorCounter
    ConsumedSize := consumedSize
    ConsumerLag := consumerLag
    ConsumerTimingSuccess := consumerTimingSuccess
    ConsumerTimingFailure := consumerTimingFailure }

/-- Go `(*StatMessageProcessorComponent).New`: the wrapping function and the error, which
is always nil. The context argument is ignored. -/
def StatMessageProcessorComponent.New (_ctx : Context) (conf : StatMessageProcessorConfig) :
    (MessageProcessor → StatMessageProcessor) × Option String :=
  (fun processor =>
    { ConsumedCounter := conf.ConsumedCounter
      ConsumerSuccessCounter := conf.ConsumerSuccessCounter
      ConsumerErrorCounter := conf.ConsumerErrorCounter
      ConsumedSize := conf.ConsumedSize
      ConsumerLag := conf.ConsumerLag
      ConsumerTimingSuccess := conf.ConsumerTimingSuccess
      ConsumerTimingFailure := conf.ConsumerTimingFailure
      wrapped := processor },
   none)

/-- Go `StatMessageProcessor.ProcessMessage`. Dereferencing a nil
`ApproximateArrivalTimestamp` for `Local()` panics; a panic of the wrapped processor
unwinds through this function, which does not recover. The source names the result type
`MessageProcessError`; what is returned is the value `err` of the wrapped call. -/
def StatMessageProcessor.ProcessMessage (t : StatMessageProcessor) (ctx : Context)
    (record : Record) (w : World) : Outcome :=
  let stat := xstats.FromContext ctx
  match record.ApproximateArrivalTimestamp with
  | none => Except.error Panic.nilDereference
  | some messageArrivalTimeStamp =>
    let (lagDuration, w) := time.Since messageArrivalTimeStamp.Local w
    let w := stat.Timing t.ConsumerLag lagDuration w
    let w := stat.Count t.ConsumedCounter 1 w
    let w := stat.Count t.ConsumedSize (float64 record.Data.length) w
    let (start, w) := time.Now w
    match t.wrapped.ProcessMessage ctx record w with
    | Except.error p => Except.error p
    | Except.ok (err, w) =>
      let (now, w) := time.Now w
      let end_ := now.Sub start
      match err with
      | none =>
        let w := stat.Count t.ConsumerSuccessCounter 1 w
        let w := stat.Timing t.ConsumerTimingSuccess end_ w
        Except.ok (err, w)
      | some _ =>
        let w := stat.Count t.ConsumerErrorCounter 1 w
        let w := stat.Timing t.ConsumerTimingFailure end_ w
        Except.ok (err, w)

/-- The decorator seen through the interface it implements. -/
def StatMessageProcessor.toMessageProcessor (t : StatMessageProcessor) : MessageProcessor :=
  { ProcessMessage := t.ProcessMessage }

/-- Go `NewStatMessageProcessor`: only `wrapped` is set, the seven name fields keep the
zero value of `string`. -/
def NewStatMessageProcessor : MessageProcessor → StatMessageProcessor :=
  fun processor =>
    { ConsumedCounter := ""
      ConsumerSuccessCounter := ""
      ConsumerErrorCounter := ""
      ConsumedSize := ""
      ConsumerLag := ""
      ConsumerTimingSuccess := ""
      ConsumerTimingFailure := ""
      wrapped := processor }

/-! ## `statbinder.go` -/

/-- Go `StatBinder`. -/
structure StatBinder where
  stats : XStater
  wrapped : MessageProcessor

/-- Go `(*StatBinder).ProcessMessage`. -/
def StatBinder.ProcessMessage (t : StatBinder) (ctx : Context) (record : Record)
    (w : World) : Outcome :=
  let ctx := xstats.NewContext ctx (xstats.Copy t.stats)
  t.wrapped.ProcessMessage ctx record w

/-- Go `NewStatBinder`. -/
def NewStatBinder (stats : XStater) : MessageProcessor → StatBinder :=
  fun next => { stats := stats, wrapped := next }

/-! ## Observations used to state the properties -/

/-- The world in which `StatMessageProcessor.ProcessMessage` calls the wrapped processor,
for a record whose timestamp is `ts`: the statements of
`StatMessageProcessor.ProcessMessage` from `time.Since` down to `start := time.Now()`,
run from `w`. -/
def StatMessageProcessor.delegationWorld (t : StatMessageProcessor) (ctx : Context)
    (record : Record) (ts : Time) (w : World) : World :=
  let stat := xstats.FromContext ctx
  let (lagDuration, w) := time.Since ts.Local w
  let w := stat.Timing t.ConsumerLag lagDuration w
  let w := stat.Count t.ConsumedCounter 1 w
  let w := stat.Count t.ConsumedSize (float64 record.Data.length) w
  (time.Now w).2

/-- The metric name a call was made under. -/
def Call.name : Call → String
  | Call.Count _ name _ => name
  | Call.Timing _ name _ => name

/-- The calls of `l` made under the metric name `name`, in order. -/
def callsUnder (name : String) (l : List Call) : List Call :=
  l.filter (fun c => c.name = name)

/-! ## Concrete inputs -/

/-- Go `dummyMessageProcessor` of `statbinder_test.go`: `ProcessMessage` returns nil and
does nothing else (its `testFunc` is never called). -/
def dummyMessageProcessor : MessageProcessor :=
  { ProcessMessage := fun _ _ w => Except.ok (none, w) }

/-- A wrapped processor that returns the error `e` and touches nothing. -/
def failing (e : MessageProcessorError) : MessageProcessor :=
  { ProcessMessage := fun _ _ w => Except.ok (some e, w) }

/-- A clock that starts at wall time `1000`, monotonic reading `1`, and advances by `10`
nanoseconds a reading. -/
def testClock : Nat → Time :=
  fun n => { wall := 1000 + 10 * n, mono := some (1 + 10 * n) }

/-- A fresh world on `testClock`. -/
def testWorld : World :=
  { clock := testClock, reads := 0, calls := [] }

/-- A record of two bytes produced at wall time `400`, sequence number `12345`. -/
def testRecord : Record :=
  { Data := [123, 125]
    ApproximateArrivalTimestamp := some { wall := 400, mono := none }
    SequenceNumber := some "12345"
    addressable := by decide }

/-- A scope in which the sink `client 7` is bound. -/
def testContext : Context :=
  xstats.NewContext Context.Background (XStater.client 7)

/-- The decorator built from the default settings around `p`. -/
def defaultDecorator (p : MessageProcessor) : StatMessageProcessor :=
  (StatMessageProcessorComponent.New Context.Background
    StatMessageProcessorComponent.Settings).1 p

/-- The zero value of Go `time.Time`: January 1 of year 1, 00:00 UTC, which is
`-62135596800` seconds relative to the Unix epoch. -/
def zeroTime : Time :=
  { wall := -62135596800000000000, mono := none }

/-- A record whose production timestamp is the zero `time.Time`. -/
def staleRecord : Record :=
  { Data := []
    ApproximateArrivalTimestamp := some zeroTime
    SequenceNumber := some "12345"
    addressable := by decide }

/-- A clock read on November 2, 2026 (`1793577600` seconds after the Unix epoch), advancing
by `10` nanoseconds a reading. -/
def lateClock : Nat → Time :=
  fun n => { wall := 1793577600000000000 + 10 * n, mono := some (1 + 10 * n) }

/-- A fresh world on `lateClock`. -/
def lateWorld : World :=
  { clock := lateClock, reads := 0, calls := [] }

/-- A record produced at wall time `5000`, after the first reading of `testClock`. -/
def futureRecord : Record :=
  { Data := []
    ApproximateArrivalTimestamp := some { wall := 5000, mono := none }
    SequenceNumber := none
    addressable := by decide }

/-- The record of `statbinder_test.go`, `kinesis.Record{}`: no payload, nil timestamp. -/
def emptyRecord : Record :=
  { Data := []
    ApproximateArrivalTimestamp := none
    SequenceNumber := none
    addressable := by decide }

/-- A wrapped processor that panics. -/
def panicking (n : Nat) : MessageProcessor :=
  { ProcessMessage := fun _ _ _ => Except.error (Panic.raised n) }

/-! ## Shared lemmas -/

theorem float64_exact (n : Nat) (h : n < 2 ^ 53) : float64 n = n := by
  unfold float64
  rw [if_pos h]

theorem float64_len (record : Record) : float64 record.Data.length = record.Data.length :=
  float64_exact _ record.addressable

theorem delegationWorld_eq (t : StatMessageProcessor) (ctx : Context) (record : Record)
    (ts : Time) (w : World) :
    t.delegationWorld ctx record ts w =
      { clock := w.clock
        reads := w.reads + 2
        calls := w.calls ++
          [Call.Timing (xstats.FromContext ctx) t.ConsumerLag ((w.clock w.reads).Sub ts.Local),
           Call.Count (xstats.FromContext ctx) t.ConsumedCounter 1,
           Call.Count (xstats.FromContext ctx) t.ConsumedSize record.Data.length] } := by
  simp [StatMessageProcessor.delegationWorld, time.Since, time.Now, XStater.Timing,
    XStater.Count, float64_len]

theorem ProcessMessage_run (t : StatMessageProcessor) (ctx : Context) (record : Record)
    (w : World) (ts : Time) (hts : record.ApproximateArrivalTimestamp = some ts) :
    t.ProcessMessage ctx record w =
      match t.wrapped.ProcessMessage ctx record (t.delegationWorld ctx record ts w) with
      | Except.error p => Except.error p
      | Except.ok (err, w') =>
        Except.ok (err,
          { clock := w'.clock
            reads := w'.reads + 1
            calls := w'.calls ++
              [Call.Count (xstats.FromContext ctx)
                 (if err = none then t.ConsumerSuccessCounter else t.ConsumerErrorCounter) 1,
               Call.Timing (xstats.FromContext ctx)
                 (if err = none then t.ConsumerTimingSuccess else t.ConsumerTimingFailure)
                 ((w'.clock w'.reads).Sub (w.clock (w.reads + 1)))] }) := by
  cases hinner : t.wrapped.ProcessMessage ctx record (t.delegationWorld ctx record ts w) with
  | error p =>
    simp only [StatMessageProcessor.delegationWorld, time.Since, time.Now, XStater.Timing,
      XStater.Count] at hinner
    simp only [StatMessageProcessor.ProcessMessage, hts, time.Since, time.Now, XStater.Timing,
      XStater.Count, hinner]
  | ok res =>
    obtain ⟨err, w'⟩ := res
    simp only [StatMessageProcessor.delegationWorld, time.Since, time.Now, XStater.Timing,
      XStater.Count] at hinner
    simp only [StatMessageProcessor.ProcessMessage, hts, time.Since, time.Now, XStater.Timing,
      XStater.Count, hinner]
    cases err with
    | none => simp
    | some e => simp

theorem minDuration_eq : minDuration = (-9223372036854775808 : Int) := by
  norm_num [minDuration]

theorem maxDuration_eq : maxDuration = (9223372036854775807 : Int) := by
  norm_num [maxDuration]

theorem wrap64_eq (x : Int) :
    wrap64 x = (x + 9223372036854775808) % 18446744073709551616 - 9223372036854775808 := by
  norm_num [wrap64]

theorem wrap64_fits (x : Int) (h1 : minDuration ≤ x) (h2 : x ≤ maxDuration) :
    wrap64 x = x := by
  rw [minDuration_eq] at h1
  rw [maxDuration_eq] at h2
  rw [wrap64_eq]
  omega

/-- Wall-clock subtraction, as `time.Since` applies it to a timestamp made local: the exact
difference when it fits a `Duration`, the nearer bound when it does not. -/
theorem Sub_Local (now ts : Time) :
    now.Sub ts.Local =
      if now.wall - ts.wall < minDuration then minDuration
      else if maxDuration < now.wall - ts.wall then maxDuration
      else now.wall - ts.wall := by
  have hsub : now.Sub ts.Local =
      if ts.wall + wrap64 (now.wall - ts.wall) = now.wall then wrap64 (now.wall - ts.wall)
      else if now.wall < ts.wall then minDuration else maxDuration := by
    unfold Time.Sub Time.Local
    cases now.mono <;> rfl
  rw [hsub, wrap64_eq, minDuration_eq, maxDuration_eq]
  split_ifs <;> omega

/-- Two readings of `time.Now` that carry monotonic readings `um ≤ tm` in the range of
`int64` are subtracted exactly. -/
theorem Sub_mono (t u : Time) (tm um : Int) (ht : t.mono = some tm) (hu : u.mono = some um)
    (h0 : 0 ≤ um) (h1 : um ≤ tm) (h2 : tm ≤ maxDuration) : t.Sub u = tm - um := by
  unfold Time.Sub
  rw [ht, hu]
  simp only [time.subMono]
  rw [wrap64_fits (tm - um) (by rw [minDuration_eq]; omega) (by omega)]
  rw [if_neg (by omega), if_neg (by omega)]

/-- A record whose `ApproximateArrivalTimestamp` is nil makes `ProcessMessage` panic before
any call is made, on a sink or on the wrapped processor. -/
theorem ProcessMessage_nil_timestamp (t : StatMessageProcessor) (ctx : Context)
    (record : Record) (w : World) (hts : record.ApproximateArrivalTimestamp = none) :
    t.ProcessMessage ctx record w = Except.error Panic.nilDereference := by
  simp only [StatMessageProcessor.ProcessMessage, hts]

/-! ## `StatMessageProcessor.ProcessMessage` -/

/-- C1: `StatMessageProcessor.ProcessMessage` returns the outcome of the wrapped processor
unchanged. For every decorator, scope, world and record carrying a production timestamp,
the wrapped processor is called in `delegationWorld`; when it returns nil there,
`ProcessMessage` returns nil; when it returns the error `e`, `ProcessMessage` returns that
same `e`; and `ProcessMessage` returns no value the wrapped processor did not return. -/
theorem ProcessMessage_returns_inner_outcome (t : StatMessageProcessor) (ctx : Context)
    (record : Record) (w : World) (ts : Time)
    (hts : record.ApproximateArrivalTimestamp = some ts) :
    (∀ w', t.wrapped.ProcessMessage ctx record (t.delegationWorld ctx record ts w)
          = Except.ok (none, w') →
        ∃ wf, t.ProcessMessage ctx record w = Except.ok (none, wf)) ∧
    (∀ e w', t.wrapped.ProcessMessage ctx record (t.delegationWorld ctx record ts w)
          = Except.ok (some e, w') →
        ∃ wf, t.ProcessMessage ctx record w = Except.ok (some e, wf)) ∧
    (∀ err wf, t.ProcessMessage ctx record w = Except.ok (err, wf) →
        ∃ w', t.wrapped.ProcessMessage ctx record (t.delegationWorld ctx record ts w)
          = Except.ok (err, w')) := by
  have hrun := ProcessMessage_run t ctx record w ts hts
  refine ⟨?_, ?_, ?_⟩
  · intro w' h
    rw [h] at hrun
    exact ⟨_, hrun⟩
  · intro e w' h
    rw [h] at hrun
    exact ⟨_, hrun⟩
  · intro err wf h
    rw [h] at hrun
    cases hinner : t.wrapped.ProcessMessage ctx record (t.delegationWorld ctx record ts w) with
    | error p =>
      rw [hinner] at hrun
      cases hrun
    | ok res =>
      obtain ⟨err', w'⟩ := res
      rw [hinner] at hrun
      simp only [Except.ok.injEq, Prod.mk.injEq] at hrun
      exact ⟨w', by rw [hrun.1]⟩

/-- Witness of C1: a wrapped processor failing with error `3` on `testRecord`. -/
theorem ProcessMessage_returns_inner_outcome_witness :
    testRecord.ApproximateArrivalTimestamp = some { wall := 400, mono := none } ∧
    ∃ wf, (defaultDecorator (failing { id := 3 })).ProcessMessage testContext testRecord
      testWorld = Except.ok (some { id := 3 }, wf) :=
  ⟨rfl, (ProcessMessage_returns_inner_outcome (defaultDecorator (failing { id := 3 }))
    testContext testRecord testWorld { wall := 400, mono := none } rfl).2.1
      { id := 3 } _ rfl⟩

/-- C2: one call of `StatMessageProcessor.ProcessMessage` on a record carrying a production
timestamp makes, on the sink bound in the scope, a `Timing` under the lag name, a `Count`
under the consumed name and a `Count` under the consumed-size name, reading the clock
twice; it then calls the wrapped processor once, with the same scope and record, in the
world so reached; when that call returns it reads the clock once more and makes a `Count`
under the success or the error name and a `Timing` under the timing-success or the
timing-failure name, and nothing else. -/
theorem ProcessMessage_event_sequence (t : StatMessageProcessor) (ctx : Context)
    (record : Record) (w : World) (ts : Time)
    (hts : record.ApproximateArrivalTimestamp = some ts) :
    t.delegationWorld ctx record ts w =
      { clock := w.clock
        reads := w.reads + 2
        calls := w.calls ++
          [Call.Timing (xstats.FromContext ctx) t.ConsumerLag ((w.clock w.reads).Sub ts.Local),
           Call.Count (xstats.FromContext ctx) t.ConsumedCounter 1,
           Call.Count (xstats.FromContext ctx) t.ConsumedSize record.Data.length] } ∧
    (∀ w', t.wrapped.ProcessMessage ctx record (t.delegationWorld ctx record ts w)
          = Except.ok (none, w') →
        t.ProcessMessage ctx record w = Except.ok (none,
          { clock := w'.clock
            reads := w'.reads + 1
            calls := w'.calls ++
              [Call.Count (xstats.FromContext ctx) t.ConsumerSuccessCounter 1,
               Call.Timing (xstats.FromContext ctx) t.ConsumerTimingSuccess
                 ((w'.clock w'.reads).Sub (w.clock (w.reads + 1)))] })) ∧
    (∀ e w', t.wrapped.ProcessMessage ctx record (t.delegationWorld ctx record ts w)
          = Except.ok (some e, w') →
        t.ProcessMessage ctx record w = Except.ok (some e,
          { clock := w'.clock
            reads := w'.reads + 1
            calls := w'.calls ++
              [Call.Count (xstats.FromContext ctx) t.ConsumerErrorCounter 1,
               Call.Timing (xstats.FromContext ctx) t.ConsumerTimingFailure
                 ((w'.clock w'.reads).Sub (w.clock (w.reads + 1)))] })) := by
  have hrun := ProcessMessage_run t ctx record w ts hts
  refine ⟨delegationWorld_eq t ctx record ts w, ?_, ?_⟩
  · intro w' h
    rw [h] at hrun
    simpa using hrun
  · intro e w' h
    rw [h] at hrun
    simpa using hrun

/-- Witness of C2: the five calls `client 7` receives around a succeeding processor, in
order. -/
theorem ProcessMessage_event_sequence_witness :
    testRecord.ApproximateArrivalTimestamp = some { wall := 400, mono := none } ∧
    (defaultDecorator dummyMessageProcessor).ProcessMessage testContext testRecord testWorld =
      Except.ok (none,
        { clock := testClock
          reads := 3
          calls :=
            [Call.Timing (XStater.client 7) "kinesis.consumer_lag.timing" 600,
             Call.Count (XStater.client 7) "kinesis.consumed" 1,
             Call.Count (XStater.client 7) "kinesis.consumed_size" 2,
             Call.Count (XStater.client 7) "kinesis.consumer_success" 1,
             Call.Timing (XStater.client 7) "kinesis.consumer.timing.success" 10] }) := by
  refine ⟨rfl, ?_⟩
  have h := (ProcessMessage_event_sequence (defaultDecorator dummyMessageProcessor) testContext
    testRecord testWorld { wall := 400, mono := none } rfl).2.1 _ rfl
  rw [h]
  rfl

/-- C3: for a decorator whose seven metric names are pairwise distinct, the outcome of the
wrapped processor alone selects the closing pair. `pre` and `post` are the calls
`ProcessMessage` makes before and after it delegates. When the wrapped processor returned
nil, exactly one call is made under the success name, a `Count` of `1`, exactly one under
the timing-success name, a `Timing` of the elapsed duration (the clock reading taken after
the wrapped call, `Sub` the start reading taken just before it), and none under the error
name or the timing-failure name; when it returned an error, the same holds with the two
pairs of names exchanged. The elapsed duration is the exact difference of the monotonic
readings `time.Now` attaches to the two clock readings. -/
theorem ProcessMessage_outcome_pair (t : StatMessageProcessor) (ctx : Context)
    (record : Record) (w : World) (ts : Time)
    (hts : record.ApproximateArrivalTimestamp = some ts)
    (hnames : [t.ConsumedCounter, t.ConsumerSuccessCounter, t.ConsumerErrorCounter,
      t.ConsumedSize, t.ConsumerLag, t.ConsumerTimingSuccess, t.ConsumerTimingFailure].Nodup)
    (err : Option MessageProcessorError) (w' : World)
    (hinner : t.wrapped.ProcessMessage ctx record (t.delegationWorld ctx record ts w)
      = Except.ok (err, w')) :
    ∃ pre post : List Call,
      (t.delegationWorld ctx record ts w).calls = w.calls ++ pre ∧
      t.ProcessMessage ctx record w =
        Except.ok (err,
          { clock := w'.clock, reads := w'.reads + 1, calls := w'.calls ++ post }) ∧
      (err = none →
        callsUnder t.ConsumerSuccessCounter (pre ++ post) =
          [Call.Count (xstats.FromContext ctx) t.ConsumerSuccessCounter 1] ∧
        callsUnder t.ConsumerTimingSuccess (pre ++ post) =
          [Call.Timing (xstats.FromContext ctx) t.ConsumerTimingSuccess
            ((w'.clock w'.reads).Sub (w.clock (w.reads + 1)))] ∧
        callsUnder t.ConsumerErrorCounter (pre ++ post) = [] ∧
        callsUnder t.ConsumerTimingFailure (pre ++ post) = []) ∧
      (err ≠ none →
        callsUnder t.ConsumerErrorCounter (pre ++ post) =
          [Call.Count (xstats.FromContext ctx) t.ConsumerErrorCounter 1] ∧
        callsUnder t.ConsumerTimingFailure (pre ++ post) =
          [Call.Timing (xstats.FromContext ctx) t.ConsumerTimingFailure
            ((w'.clock w'.reads).Sub (w.clock (w.reads + 1)))] ∧
        callsUnder t.ConsumerSuccessCounter (pre ++ post) = [] ∧
        callsUnder t.ConsumerTimingSuccess (pre ++ post) = []) ∧
      (∀ m0 m1 : Int, (w.clock (w.reads + 1)).mono = some m0 →
        (w'.clock w'.reads).mono = some m1 → 0 ≤ m0 → m0 ≤ m1 → m1 ≤ maxDuration →
        (w'.clock w'.reads).Sub (w.clock (w.reads + 1)) = m1 - m0) := by
  have hrun := ProcessMessage_run t ctx record w ts hts
  rw [hinner] at hrun
  simp only [List.nodup_cons, List.mem_cons, List.mem_singleton, not_or, List.not_mem_nil,
    not_false_eq_true, List.nodup_nil, and_true] at hnames
  obtain ⟨⟨h12, h13, h14, h15, h16, h17⟩, ⟨h23, h24, h25, h26, h27⟩, ⟨h34, h35, h36, h37⟩,
    ⟨h45, h46, h47⟩, ⟨h56, h57⟩, h67⟩ := hnames
  refine ⟨_, _, by rw [delegationWorld_eq], hrun, ?_, ?_,
    fun m0 m1 h0 h1 hm0 hle hm1 => Sub_mono _ _ m1 m0 h1 h0 hm0 hle hm1⟩
  · intro he
    subst he
    simp [callsUnder, List.filter_cons, Call.name,
      h12, h13, h14, h15, h16, h17, h23, h24, h25, h26, h27, h34, h35, h36, h37, h45, h46,
      h47, h56, h57, h67, Ne.symm h12, Ne.symm h13, Ne.symm h14, Ne.symm h15, Ne.symm h16,
      Ne.symm h17, Ne.symm h23, Ne.symm h24, Ne.symm h25, Ne.symm h26, Ne.symm h27,
      Ne.symm h34, Ne.symm h35, Ne.symm h36, Ne.symm h37, Ne.symm h45, Ne.symm h46,
      Ne.symm h47, Ne.symm h56, Ne.symm h57, Ne.symm h67]
  · intro he
    simp [callsUnder, List.filter_cons, Call.name, he,
      h12, h13, h14, h15, h16, h17, h23, h24, h25, h26, h27, h34, h35, h36, h37, h45, h46,
      h47, h56, h57, h67, Ne.symm h12, Ne.symm h13, Ne.symm h14, Ne.symm h15, Ne.symm h16,
      Ne.symm h17, Ne.symm h23, Ne.symm h24, Ne.symm h25, Ne.symm h26, Ne.symm h27,
      Ne.symm h34, Ne.symm h35, Ne.symm h36, Ne.symm h37, Ne.symm h45, Ne.symm h46,
      Ne.symm h47, Ne.symm h56, Ne.symm h57, Ne.symm h67]

/-- Witness of C3: the default names are pairwise distinct, and around a processor failing
with error `3` the sink receives the error pair. -/
theorem ProcessMessage_outcome_pair_witness :
    testRecord.ApproximateArrivalTimestamp = some { wall := 400, mono := none } ∧
    [consumedCounter, consumerSuccessCounter, consumerErrorCounter, consumedSize,
      consumerLag, consumerTimingSuccess, consumerTimingFailure].Nodup ∧
    ∃ pre post : List Call,
      (defaultDecorator (failing { id := 3 })).ProcessMessage testContext testRecord testWorld =
        Except.ok (some { id := 3 },
          { clock := testClock, reads := 3, calls := [] ++ pre ++ post }) ∧
      callsUnder consumerErrorCounter (pre ++ post) =
        [Call.Count (XStater.client 7) consumerErrorCounter 1] ∧
      callsUnder consumerSuccessCounter (pre ++ post) = [] := by
  refine ⟨rfl, by decide, ?_⟩
  obtain ⟨pre, post, hpre, hpm, -, herr, -⟩ :=
    ProcessMessage_outcome_pair (defaultDecorator (failing { id := 3 })) testContext
      testRecord testWorld { wall := 400, mono := none } rfl (by decide)
      (some { id := 3 }) _ rfl
  refine ⟨pre, post, ?_, (herr (by simp)).1, (herr (by simp)).2.2.1⟩
  rw [hpm, hpre]
  rfl

/-- C5: for every record carrying a production timestamp whose payload has `n` bytes (`0`
for an empty payload), the calls `ProcessMessage` has made when it delegates are the lag
`Timing`, a `Count` of exactly `1` under the consumed name and a `Count` of exactly `n`
under the consumed-size name; this is so whatever the wrapped processor then does: return
nil, return an error, or panic. -/
theorem ProcessMessage_consumed_and_size (t : StatMessageProcessor) (ctx : Context)
    (record : Record) (w : World) (ts : Time) (n : Nat)
    (hts : record.ApproximateArrivalTimestamp = some ts)
    (hn : record.Data.length = n) :
    (∃ lag, (t.delegationWorld ctx record ts w).calls = w.calls ++
      [Call.Timing (xstats.FromContext ctx) t.ConsumerLag lag,
       Call.Count (xstats.FromContext ctx) t.ConsumedCounter 1,
       Call.Count (xstats.FromContext ctx) t.ConsumedSize n]) ∧
    (∀ err w', t.wrapped.ProcessMessage ctx record (t.delegationWorld ctx record ts w)
          = Except.ok (err, w') →
        ∃ post, post.length = 2 ∧ t.ProcessMessage ctx record w = Except.ok (err,
          { clock := w'.clock, reads := w'.reads + 1, calls := w'.calls ++ post })) ∧
    (∀ p, t.wrapped.ProcessMessage ctx record (t.delegationWorld ctx record ts w)
          = Except.error p →
        t.ProcessMessage ctx record w = Except.error p) := by
  have hrun := ProcessMessage_run t ctx record w ts hts
  refine ⟨⟨_, by rw [delegationWorld_eq, hn]⟩, ?_, ?_⟩
  · intro err w' h
    rw [h] at hrun
    exact ⟨_, by simp, hrun⟩
  · intro p h
    rw [h] at hrun
    exact hrun

/-- Witness of C5: the two bytes of `testRecord`. -/
theorem ProcessMessage_consumed_and_size_witness :
    testRecord.ApproximateArrivalTimestamp = some { wall := 400, mono := none } ∧
    testRecord.Data.length = 2 ∧
    ∃ lag, ((defaultDecorator dummyMessageProcessor).delegationWorld testContext testRecord
        { wall := 400, mono := none } testWorld).calls = testWorld.calls ++
      [Call.Timing (xstats.FromContext testContext) consumerLag lag,
       Call.Count (xstats.FromContext testContext) consumedCounter 1,
       Call.Count (xstats.FromContext testContext) consumedSize 2] :=
  ⟨rfl, rfl, (ProcessMessage_consumed_and_size (defaultDecorator dummyMessageProcessor)
    testContext testRecord testWorld { wall := 400, mono := none } 2 rfl rfl).1⟩

/-- Counterexample to C6 as stated: for a record stamped with the zero `time.Time` and a
clock read in 2026, the clock reading minus the timestamp is `63929174400000000000`
nanoseconds, and the `Timing` made under the lag name carries `9223372036854775807`, the
largest `time.Duration`. -/
theorem ProcessMessage_lag_saturates :
    staleRecord.ApproximateArrivalTimestamp = some zeroTime ∧
    (lateWorld.clock lateWorld.reads).wall - zeroTime.wall = 63929174400000000000 ∧
    (defaultDecorator dummyMessageProcessor).ProcessMessage testContext staleRecord lateWorld =
      Except.ok (none,
        { clock := lateClock
          reads := 3
          calls :=
            [Call.Timing (XStater.client 7) "kinesis.consumer_lag.timing" 9223372036854775807,
             Call.Count (XStater.client 7) "kinesis.consumed" 1,
             Call.Count (XStater.client 7) "kinesis.consumed_size" 0,
             Call.Count (XStater.client 7) "kinesis.consumer_success" 1,
             Call.Timing (XStater.client 7) "kinesis.consumer.timing.success" 10] }) ∧
    (9223372036854775807 : Int) ≠ 63929174400000000000 :=
  ⟨rfl, by decide, rfl, by decide⟩

/-- C6, amended: for every record with production timestamp `ts` and clock reading `now`
at the lag measurement, the first call `ProcessMessage` makes is a `Timing` under the lag
name, made in every case; its value `lag` is `now - ts` in nanoseconds whenever that
difference fits a `time.Duration` (negative differences included, unchanged), and is the
nearer bound of `time.Duration` when it does not. -/
theorem ProcessMessage_lag (t : StatMessageProcessor) (ctx : Context)
    (record : Record) (w : World) (ts : Time)
    (hts : record.ApproximateArrivalTimestamp = some ts) :
    ∃ lag : Int,
      (t.delegationWorld ctx record ts w).calls = w.calls ++
        [Call.Timing (xstats.FromContext ctx) t.ConsumerLag lag,
         Call.Count (xstats.FromContext ctx) t.ConsumedCounter 1,
         Call.Count (xstats.FromContext ctx) t.ConsumedSize record.Data.length] ∧
      (- (2 : Int) ^ 63 ≤ (w.clock w.reads).wall - ts.wall →
        (w.clock w.reads).wall - ts.wall ≤ 2 ^ 63 - 1 →
        lag = (w.clock w.reads).wall - ts.wall) ∧
      ((w.clock w.reads).wall - ts.wall < - (2 : Int) ^ 63 → lag = - (2 : Int) ^ 63) ∧
      (2 ^ 63 - 1 < (w.clock w.reads).wall - ts.wall → lag = 2 ^ 63 - 1) ∧
      (∀ err w', t.wrapped.ProcessMessage ctx record (t.delegationWorld ctx record ts w)
            = Except.ok (err, w') →
          ∃ post, t.ProcessMessage ctx record w = Except.ok (err,
            { clock := w'.clock, reads := w'.reads + 1, calls := w'.calls ++ post })) := by
  have hrun := ProcessMessage_run t ctx record w ts hts
  have hsub := Sub_Local (w.clock w.reads) ts
  rw [minDuration_eq, maxDuration_eq] at hsub
  refine ⟨(w.clock w.reads).Sub ts.Local, by rw [delegationWorld_eq], ?_, ?_, ?_, ?_⟩
  · intro h1 h2
    rw [hsub]
    norm_num at h1 h2
    rw [if_neg (by omega), if_neg (by omega)]
  · intro h1
    rw [hsub]
    norm_num at h1 ⊢
    intro h2
    omega
  · intro h1
    rw [hsub]
    norm_num at h1 ⊢
    rw [if_neg (by omega), if_pos h1]
  · intro err w' h
    rw [h] at hrun
    exact ⟨_, hrun⟩

/-- Witness of C6, amended: a record stamped `4000` nanoseconds after the clock reading;
the lag is emitted as `-4000`. -/
theorem ProcessMessage_lag_witness :
    futureRecord.ApproximateArrivalTimestamp = some { wall := 5000, mono := none } ∧
    ∃ lag : Int,
      ((defaultDecorator dummyMessageProcessor).delegationWorld testContext futureRecord
          { wall := 5000, mono := none } testWorld).calls =
        [Call.Timing (XStater.client 7) consumerLag lag,
         Call.Count (XStater.client 7) consumedCounter 1,
         Call.Count (XStater.client 7) consumedSize 0] ∧
      lag = -4000 := by
  refine ⟨rfl, ?_⟩
  obtain ⟨lag, hcalls, hfit, -, -, -⟩ :=
    ProcessMessage_lag (defaultDecorator dummyMessageProcessor) testContext futureRecord testWorld
      { wall := 5000, mono := none } rfl
  exact ⟨lag, hcalls, hfit (by decide) (by decide)⟩

/-- C9: on a record that meets the upstream contract (its production timestamp is not nil;
its payload may be empty), in every scope, with or without a sink bound,
`ProcessMessage` raises no failure of its own: whenever the wrapped processor returns,
`ProcessMessage` returns; a panic leaving `ProcessMessage` is the panic the wrapped
processor raised; an error `ProcessMessage` returns is the error the wrapped processor
returned. -/
theorem ProcessMessage_no_failure_of_its_own (t : StatMessageProcessor) (ctx : Context)
    (record : Record) (w : World) (ts : Time)
    (hts : record.ApproximateArrivalTimestamp = some ts) :
    (∀ err w', t.wrapped.ProcessMessage ctx record (t.delegationWorld ctx record ts w)
          = Except.ok (err, w') →
        ∃ wf, t.ProcessMessage ctx record w = Except.ok (err, wf)) ∧
    (∀ p, t.ProcessMessage ctx record w = Except.error p →
        t.wrapped.ProcessMessage ctx record (t.delegationWorld ctx record ts w)
          = Except.error p) ∧
    (∀ e wf, t.ProcessMessage ctx record w = Except.ok (some e, wf) →
        ∃ w', t.wrapped.ProcessMessage ctx record (t.delegationWorld ctx record ts w)
          = Except.ok (some e, w')) := by
  have hrun := ProcessMessage_run t ctx record w ts hts
  refine ⟨?_, ?_, ?_⟩
  · intro err w' h
    rw [h] at hrun
    exact ⟨_, hrun⟩
  · intro p h
    rw [h] at hrun
    cases hinner : t.wrapped.ProcessMessage ctx record (t.delegationWorld ctx record ts w) with
    | error q =>
      rw [hinner] at hrun
      simp only [Except.error.injEq] at hrun
      rw [hrun]
    | ok res =>
      rw [hinner] at hrun
      cases hrun
  · intro e wf h
    rw [h] at hrun
    cases hinner : t.wrapped.ProcessMessage ctx record (t.delegationWorld ctx record ts w) with
    | error q =>
      rw [hinner] at hrun
      cases hrun
    | ok res =>
      obtain ⟨err', w'⟩ := res
      rw [hinner] at hrun
      simp only [Except.ok.injEq, Prod.mk.injEq] at hrun
      exact ⟨w', by rw [hrun.1]⟩

/-- Witness of C9: no sink is bound in `Context.Background`, the payload of `staleRecord`
is empty, and `ProcessMessage` returns; around a processor that panics, the panic that
leaves `ProcessMessage` is that processor's. -/
theorem ProcessMessage_no_failure_of_its_own_witness :
    staleRecord.ApproximateArrivalTimestamp = some zeroTime ∧
    xstats.FromContext Context.Background = XStater.nop ∧
    (∃ wf, (defaultDecorator dummyMessageProcessor).ProcessMessage Context.Background
      staleRecord lateWorld = Except.ok (none, wf)) ∧
    (defaultDecorator (panicking 5)).ProcessMessage Context.Background staleRecord lateWorld
      = Except.error (Panic.raised 5) :=
  ⟨rfl, rfl, (ProcessMessage_no_failure_of_its_own (defaultDecorator dummyMessageProcessor)
    Context.Background staleRecord lateWorld zeroTime rfl).1 none _ rfl, rfl⟩

/-! ## Construction and configuration -/

/-- C4, evaluated on the code: `NewStatMessageProcessor()` sets only `wrapped`. For every
wrapped processor the decorator it builds holds the empty string for each of the seven
metric names, none of which is the name held by the decorator built with
`StatMessageProcessorComponent.New` from `Settings()`; around a succeeding processor it
makes its five calls under the empty name. -/
theorem NewStatMessageProcessor_names_empty (p : MessageProcessor) :
    ((NewStatMessageProcessor p).ConsumedCounter = "" ∧
     (NewStatMessageProcessor p).ConsumerSuccessCounter = "" ∧
     (NewStatMessageProcessor p).ConsumerErrorCounter = "" ∧
     (NewStatMessageProcessor p).ConsumedSize = "" ∧
     (NewStatMessageProcessor p).ConsumerLag = "" ∧
     (NewStatMessageProcessor p).ConsumerTimingSuccess = "" ∧
     (NewStatMessageProcessor p).ConsumerTimingFailure = "" ∧
     (NewStatMessageProcessor p).wrapped = p) ∧
    ((NewStatMessageProcessor p).ConsumedCounter ≠ (defaultDecorator p).ConsumedCounter ∧
     (NewStatMessageProcessor p).ConsumerSuccessCounter
       ≠ (defaultDecorator p).ConsumerSuccessCounter ∧
     (NewStatMessageProcessor p).ConsumerErrorCounter
       ≠ (defaultDecorator p).ConsumerErrorCounter ∧
     (NewStatMessageProcessor p).ConsumedSize ≠ (defaultDecorator p).ConsumedSize ∧
     (NewStatMessageProcessor p).ConsumerLag ≠ (defaultDecorator p).ConsumerLag ∧
     (NewStatMessageProcessor p).ConsumerTimingSuccess
       ≠ (defaultDecorator p).ConsumerTimingSuccess ∧
     (NewStatMessageProcessor p).ConsumerTimingFailure
       ≠ (defaultDecorator p).ConsumerTimingFailure) ∧
    (NewStatMessageProcessor dummyMessageProcessor).ProcessMessage testContext testRecord
        testWorld =
      Except.ok (none,
        { clock := testClock
          reads := 3
          calls :=
            [Call.Timing (XStater.client 7) "" 600,
             Call.Count (XStater.client 7) "" 1,
             Call.Count (XStater.client 7) "" 2,
             Call.Count (XStater.client 7) "" 1,
             Call.Timing (XStater.client 7) "" 10] }) := by
  exact ⟨⟨rfl, rfl, rfl, rfl, rfl, rfl, rfl, rfl⟩,
    ⟨(by decide : ("" : String) ≠ consumedCounter),
     (by decide : ("" : String) ≠ consumerSuccessCounter),
     (by decide : ("" : String) ≠ consumerErrorCounter),
     (by decide : ("" : String) ≠ consumedSize),
     (by decide : ("" : String) ≠ consumerLag),
     (by decide : ("" : String) ≠ consumerTimingSuccess),
     (by decide : ("" : String) ≠ consumerTimingFailure)⟩, rfl⟩

/-- C8: `Settings()` returns the default metric names of the table, and these seven names
are non-empty and pairwise distinct. -/
theorem Settings_defaults :
    StatMessageProcessorComponent.Settings =
      { ConsumedCounter := "kinesis.consumed"
        ConsumerSuccessCounter := "kinesis.consumer_success"
        ConsumerErrorCounter := "kinesis.consumer_error"
        ConsumedSize := "kinesis.consumed_size"
        ConsumerLag := "kinesis.consumer_lag.timing"
        ConsumerTimingSuccess := "kinesis.consumer.timing.success"
        ConsumerTimingFailure := "kinesis.consumer.timing.failure" } ∧
    (∀ name ∈ [StatMessageProcessorComponent.Settings.ConsumedCounter,
        StatMessageProcessorComponent.Settings.ConsumerSuccessCounter,
        StatMessageProcessorComponent.Settings.ConsumerErrorCounter,
        StatMessageProcessorComponent.Settings.ConsumedSize,
        StatMessageProcessorComponent.Settings.ConsumerLag,
        StatMessageProcessorComponent.Settings.ConsumerTimingSuccess,
        StatMessageProcessorComponent.Settings.ConsumerTimingFailure], name ≠ "") ∧
    [StatMessageProcessorComponent.Settings.ConsumedCounter,
      StatMessageProcessorComponent.Settings.ConsumerSuccessCounter,
      StatMessageProcessorComponent.Settings.ConsumerErrorCounter,
      StatMessageProcessorComponent.Settings.ConsumedSize,
      StatMessageProcessorComponent.Settings.ConsumerLag,
      StatMessageProcessorComponent.Settings.ConsumerTimingSuccess,
      StatMessageProcessorComponent.Settings.ConsumerTimingFailure].Nodup :=
  ⟨rfl, by decide, by decide⟩

/-- C10: for every configuration, `New` returns a nil error, and the decorator it builds
around a processor holds, role by role, the name the configuration holds for that role,
and wraps that processor; overriding one option of `Settings()` changes the name of that
role in the decorator built and leaves the other six names and the wrapped processor as
built from `Settings()`. -/
theorem New_uses_configured_names (ctx : Context) (conf : StatMessageProcessorConfig) :
    (StatMessageProcessorComponent.New ctx conf).2 = none ∧
    (∀ p : MessageProcessor,
      ((StatMessageProcessorComponent.New ctx conf).1 p).ConsumedCounter
        = conf.ConsumedCounter ∧
      ((StatMessageProcessorComponent.New ctx conf).1 p).ConsumerSuccessCounter
        = conf.ConsumerSuccessCounter ∧
      ((StatMessageProcessorComponent.New ctx conf).1 p).ConsumerErrorCounter
        = conf.ConsumerErrorCounter ∧
      ((StatMessageProcessorComponent.New ctx conf).1 p).ConsumedSize = conf.ConsumedSize ∧
      ((StatMessageProcessorComponent.New ctx conf).1 p).ConsumerLag = conf.ConsumerLag ∧
      ((StatMessageProcessorComponent.New ctx conf).1 p).ConsumerTimingSuccess
        = conf.ConsumerTimingSuccess ∧
      ((StatMessageProcessorComponent.New ctx conf).1 p).ConsumerTimingFailure
        = conf.ConsumerTimingFailure ∧
      ((StatMessageProcessorComponent.New ctx conf).1 p).wrapped = p) ∧
    (∀ (p : MessageProcessor) (name : String),
      (StatMessageProcessorComponent.New ctx
          { StatMessageProcessorComponent.Settings with ConsumedCounter := name }).1 p
        = { (StatMessageProcessorComponent.New ctx StatMessageProcessorComponent.Settings).1 p
            with ConsumedCounter := name } ∧
      (StatMessageProcessorComponent.New ctx
          { StatMessageProcessorComponent.Settings with ConsumerSuccessCounter := name }).1 p
        = { (StatMessageProcessorComponent.New ctx StatMessageProcessorComponent.Settings).1 p
            with ConsumerSuccessCounter := name } ∧
      (StatMessageProcessorComponent.New ctx
          { StatMessageProcessorComponent.Settings with ConsumerErrorCounter := name }).1 p
        = { (StatMessageProcessorComponent.New ctx StatMessageProcessorComponent.Settings).1 p
            with ConsumerErrorCounter := name } ∧
      (StatMessageProcessorComponent.New ctx
          { StatMessageProcessorComponent.Settings with ConsumedSize := name }).1 p
        = { (StatMessageProcessorComponent.New ctx StatMessageProcessorComponent.Settings).1 p
            with ConsumedSize := name } ∧
      (StatMessageProcessorComponent.New ctx
          { StatMessageProcessorComponent.Settings with ConsumerLag := name }).1 p
        = { (StatMessageProcessorComponent.New ctx StatMessageProcessorComponent.Settings).1 p
            with ConsumerLag := name } ∧
      (StatMessageProcessorComponent.New ctx
          { StatMessageProcessorComponent.Settings with ConsumerTimingSuccess := name }).1 p
        = { (StatMessageProcessorComponent.New ctx StatMessageProcessorComponent.Settings).1 p
            with ConsumerTimingSuccess := name } ∧
      (StatMessageProcessorComponent.New ctx
          { StatMessageProcessorComponent.Settings with ConsumerTimingFailure := name }).1 p
        = { (StatMessageProcessorComponent.New ctx StatMessageProcessorComponent.Settings).1 p
            with ConsumerTimingFailure := name }) :=
  ⟨rfl, fun _ => ⟨rfl, rfl, rfl, rfl, rfl, rfl, rfl, rfl⟩,
    fun _ _ => ⟨rfl, rfl, rfl, rfl, rfl, rfl, rfl⟩⟩

/-! ## `StatBinder.ProcessMessage` -/

/-- Counterexample to C7 as stated: the sink `client 7` offers no copy operation, as the
mock of `TestStatBinder_ProcessMessage`. In the child scope the binder builds from
`context.Background()`, `xstats.FromContext` yields the no-op sink, not `client 7`: with
the metrics decorator as the wrapped processor, its five calls are made on `nop`. -/
theorem StatBinder_child_sink_is_nop :
    xstats.FromContext (xstats.NewContext Context.Background (xstats.Copy (XStater.client 7)))
      = XStater.nop ∧
    XStater.nop ≠ XStater.client 7 ∧
    (NewStatBinder (XStater.client 7)
        (defaultDecorator dummyMessageProcessor).toMessageProcessor).ProcessMessage
      Context.Background testRecord testWorld =
      Except.ok (none,
        { clock := testClock
          reads := 3
          calls :=
            [Call.Timing XStater.nop "kinesis.consumer_lag.timing" 600,
             Call.Count XStater.nop "kinesis.consumed" 1,
             Call.Count XStater.nop "kinesis.consumed_size" 2,
             Call.Count XStater.nop "kinesis.consumer_success" 1,
             Call.Timing XStater.nop "kinesis.consumer.timing.success" 10] }) :=
  ⟨rfl, by decide, rfl⟩

/-- C7, amended: for every shared sink, wrapped processor, caller scope, record and world,
`StatBinder.ProcessMessage` is one call of the wrapped processor, in the world it was
itself called in, with the unchanged record and the child scope; its outcome, error value
and world alike, is the outcome of that call, so the binder makes no call on a sink before
or after it. In the child scope `xstats.FromContext` yields `xstats.Copy` of the shared
sink: the copy the sink makes when it offers a copy operation, and the no-op sink when it
offers none; every other key is bound as in the caller scope. -/
theorem StatBinder_ProcessMessage_frame (stats : XStater) (next : MessageProcessor)
    (ctx : Context) (record : Record) (w : World) :
    (NewStatBinder stats next).ProcessMessage ctx record w =
      next.ProcessMessage (xstats.NewContext ctx (xstats.Copy stats)) record w ∧
    xstats.FromContext (xstats.NewContext ctx (xstats.Copy stats)) = xstats.Copy stats ∧
    (∀ id copy, stats = XStater.copier id copy →
      xstats.FromContext (xstats.NewContext ctx (xstats.Copy stats)) = copy) ∧
    (∀ id, stats = XStater.client id →
      xstats.FromContext (xstats.NewContext ctx (xstats.Copy stats)) = XStater.nop) ∧
    (stats = XStater.nop →
      xstats.FromContext (xstats.NewContext ctx (xstats.Copy stats)) = XStater.nop) ∧
    (∀ key, key ≠ CtxKey.xstatsKey →
      (xstats.NewContext ctx (xstats.Copy stats)).Value key = ctx.Value key) := by
  have hbound : xstats.FromContext (xstats.NewContext ctx (xstats.Copy stats))
      = xstats.Copy stats := by
    simp [xstats.FromContext, xstats.NewContext, Context.Value]
  refine ⟨rfl, hbound, ?_, ?_, ?_, ?_⟩
  · intro id copy h
    rw [hbound, h]
    rfl
  · intro id h
    rw [hbound, h]
    rfl
  · intro h
    rw [hbound, h]
    rfl
  · intro key hkey
    simp [xstats.NewContext, Context.Value, Ne.symm hkey]

/-- Witness of C7, amended: the run of `TestStatBinder_ProcessMessage` (the binder around
`dummyMessageProcessor`, called with `context.Background()` and `kinesis.Record{}`)
returns nil and leaves the world as it was; and a shared sink whose `Copy` method returns
`client 8` binds `client 8` in the child scope. -/
theorem StatBinder_ProcessMessage_frame_witness :
    (NewStatBinder (XStater.client 7) dummyMessageProcessor).ProcessMessage
      Context.Background emptyRecord testWorld = Except.ok (none, testWorld) ∧
    xstats.FromContext (xstats.NewContext Context.Background
        (xstats.Copy (XStater.copier 7 (XStater.client 8))))
      = XStater.client 8 :=
  ⟨(StatBinder_ProcessMessage_frame (XStater.client 7) dummyMessageProcessor
      Context.Background emptyRecord testWorld).1,
   (StatBinder_ProcessMessage_frame (XStater.copier 7 (XStater.client 8))
      dummyMessageProcessor Context.Background emptyRecord testWorld).2.2.1 7 _ rfl⟩

end Stats
